import Mathlib

/-!
# go-scanner: Ruuvi RAWv2 advertisement decoding and sensor attribution

A shallow embedding of `parse_ruuvi_data` (src/scanner.go, src/scanner/scanner.go)
and of `macStringToBytes` (src/scanner/json.go).

Modelling conventions
* a Go `byte` is a `Fin 256`; `int16`/`uint16` values are `Int`/`Nat`;
* the `bytes.Reader` is represented by the bytes it has not read yet;
* `float64` arithmetic is read over exact rationals (`ℚ`);
* the sink (`write`) is the list of `DataPoint`s handed over, in call order;
* a Go run-time panic is an `Except.error`.
-/

namespace Scanner

/-- A Go `byte`. -/
abbrev Byte := Fin 256

/-- Go `[6]byte` (type `MacAddress` in json.go). -/
structure MacAddress where
  b0 : Byte
  b1 : Byte
  b2 : Byte
  b3 : Byte
  b4 : Byte
  b5 : Byte
deriving DecidableEq, Repr

/-- The zero value of `[6]byte`. -/
def MacAddress.zero : MacAddress := ⟨0, 0, 0, 0, 0, 0⟩

/-- Go `type Sensor struct { Location string; MacAddress [6]byte }`. -/
structure Sensor where
  Location : String
  MacAddress : MacAddress
deriving DecidableEq, Repr

/-- Go `type DataPoint struct`. `RSSI` and `Time` are never assigned by
`parse_ruuvi_data`, so they keep their zero values. -/
structure DataPoint where
  Bucket : String
  Location : String
  Temperature : ℚ
  Humidity : ℚ
  AtmospherePressure : ℚ
  RSSI : ℚ
  BatteryVoltage : ℚ
  Time : Nat
deriving DecidableEq

/-- The local type `RuuviRawV2Data` of `parse_ruuvi_data`. -/
structure RuuviRawV2Data where
  Temperature : Int
  Humidity : Nat
  AtmospherePressure : Nat
  AccelerationX : Int
  AccelerationY : Int
  AccelerationZ : Int
  PowerInfo : Nat
  MovementCounter : Nat
  MovementSequenceNumber : Nat
  MacAddress : MacAddress
deriving DecidableEq

/-- The zero value of `RuuviRawV2Data` (`var rawData RuuviRawV2Data`). -/
def RuuviRawV2Data.zero : RuuviRawV2Data :=
  ⟨0, 0, 0, 0, 0, 0, 0, 0, 0, MacAddress.zero⟩

/-- The errors `io.ReadFull` can return on a `bytes.Reader`. -/
inductive ReadErr where
  | EOF
  | ErrUnexpectedEOF
deriving DecidableEq, Repr

/-- Run-time panics of the Go program. -/
inductive Panic where
  | indexOutOfRange
deriving DecidableEq, Repr

/-- The call `io.ReadFull(r, bs)` with `len(bs) = n` on a `bytes.Reader` whose unread
bytes are `r`: with at least `n` unread bytes it returns the next `n` and advances by
`n`; otherwise it drains the reader and returns `io.EOF` (nothing was left) or
`io.ErrUnexpectedEOF` (some bytes, fewer than `n`, were left). -/
def readFull (r : List Byte) (n : Nat) : Except ReadErr (List Byte) × List Byte :=
  if n ≤ r.length then (.ok (r.take n), r.drop n)
  else if r.length = 0 then (.error .EOF, [])
  else (.error .ErrUnexpectedEOF, [])

/-- Go `binary.BigEndian.Uint16(b)`: `uint16(b[1]) | uint16(b[0])<<8`. -/
def bigEndianUint16 (b : List Byte) : Nat :=
  (b.getD 1 0).val ||| ((b.getD 0 0).val <<< 8)

/-- The Go conversion `int16(x)` of a `uint16` value (two's complement). -/
def int16 (x : Nat) : Int :=
  if x % 65536 < 32768 then ((x % 65536 : Nat) : Int) else ((x % 65536 : Nat) : Int) - 65536

/-- The call `binary.Read(reader, binary.BigEndian, &x)` for `x : uint16`: the new value
of `x`, the reader afterwards and the returned error. On an error `x` is not assigned. -/
def binaryReadUint16 (r : List Byte) (x : Nat) : Nat × List Byte × Option ReadErr :=
  match readFull r 2 with
  | (.ok bs, r') => (bigEndianUint16 bs, r', none)
  | (.error e, r') => (x, r', some e)

/-- The call `binary.Read(reader, binary.BigEndian, &x)` for `x : int16`. -/
def binaryReadInt16 (r : List Byte) (x : Int) : Int × List Byte × Option ReadErr :=
  match readFull r 2 with
  | (.ok bs, r') => (int16 (bigEndianUint16 bs), r', none)
  | (.error e, r') => (x, r', some e)

/-- The call `binary.Read(reader, binary.BigEndian, &x)` for `x : uint8`. -/
def binaryReadUint8 (r : List Byte) (x : Nat) : Nat × List Byte × Option ReadErr :=
  match readFull r 1 with
  | (.ok bs, r') => ((bs.getD 0 0).val, r', none)
  | (.error e, r') => (x, r', some e)

/-- The call `binary.Read(reader, binary.BigEndian, &x)` for `x : [6]byte`: the six
bytes are copied in order. -/
def binaryReadMac (r : List Byte) (x : MacAddress) : MacAddress × List Byte × Option ReadErr :=
  match readFull r 6 with
  | (.ok bs, r') =>
      (⟨bs.getD 0 0, bs.getD 1 0, bs.getD 2 0, bs.getD 3 0, bs.getD 4 0, bs.getD 5 0⟩, r', none)
  | (.error e, r') => (x, r', some e)

/-- The ten `binary.Read` calls of `parse_ruuvi_data` (scanner/scanner.go lines 112-121)
on `reader = bytes.NewReader(data[1:])`, starting from the zero `rawData`. Each `rI` is
the triple (value stored, reader afterwards, returned error) of one call. The second
component of the result lists the ten return values, which the source discards. -/
def readRawData (reader : List Byte) : RuuviRawV2Data × List (Option ReadErr) :=
  let rawData := RuuviRawV2Data.zero
  let r0 := binaryReadInt16 reader rawData.Temperature
  let r1 := binaryReadUint16 r0.2.1 rawData.Humidity
  let r2 := binaryReadUint16 r1.2.1 rawData.AtmospherePressure
  let r3 := binaryReadInt16 r2.2.1 rawData.AccelerationX
  let r4 := binaryReadInt16 r3.2.1 rawData.AccelerationY
  let r5 := binaryReadInt16 r4.2.1 rawData.AccelerationZ
  let r6 := binaryReadUint16 r5.2.1 rawData.PowerInfo
  let r7 := binaryReadUint8 r6.2.1 rawData.MovementCounter
  let r8 := binaryReadUint16 r7.2.1 rawData.MovementSequenceNumber
  let r9 := binaryReadMac r8.2.1 rawData.MacAddress
  ({ Temperature := r0.1
     Humidity := r1.1
     AtmospherePressure := r2.1
     AccelerationX := r3.1
     AccelerationY := r4.1
     AccelerationZ := r5.1
     PowerInfo := r6.1
     MovementCounter := r7.1
     MovementSequenceNumber := r8.1
     MacAddress := r9.1 },
    [r0.2.2, r1.2.2, r2.2.2, r3.2.2, r4.2.2, r5.2.2, r6.2.2, r7.2.2, r8.2.2, r9.2.2])

/-- Source: `var Temperature = float64(rawData.Temperature) * 0.005`. -/
def Temperature (rawData : RuuviRawV2Data) : ℚ := (rawData.Temperature : ℚ) * 0.005

/-- Source: `var Humidity = float64(rawData.Humidity) * 0.0025`. -/
def Humidity (rawData : RuuviRawV2Data) : ℚ := (rawData.Humidity : ℚ) * 0.0025

/-- Source:
`var AtmospherePressure = (float64(rawData.AtmospherePressure) + float64(50000)) / 1000.0`. -/
def AtmospherePressure (rawData : RuuviRawV2Data) : ℚ :=
  ((rawData.AtmospherePressure : ℚ) + 50000) / 1000

/-- Source: `var BatteryVoltage = (float64(rawData.PowerInfo>>5) + float64(1600)) / 1000.0`. -/
def BatteryVoltage (rawData : RuuviRawV2Data) : ℚ :=
  (((rawData.PowerInfo >>> 5 : Nat) : ℚ) + 1600) / 1000

/-- Source: `var TxPower = -40 + 2*(float64(rawData.PowerInfo&0x1f))`. -/
def TxPower (rawData : RuuviRawV2Data) : ℚ :=
  -40 + 2 * (((rawData.PowerInfo &&& 0x1f : Nat) : ℚ))

/-- The `DataPoint` literal built for a matching `sensor`. -/
def mkDataPoint (rawData : RuuviRawV2Data) (sensor : Sensor) : DataPoint :=
  { Bucket := "Sensor data"
    Location := sensor.Location
    Temperature := Temperature rawData
    Humidity := Humidity rawData
    AtmospherePressure := AtmospherePressure rawData
    RSSI := 0
    BatteryVoltage := BatteryVoltage rawData
    Time := 0 }

/-- The loop `for _, sensor := range Sensors { if sensor.MacAddress == rawData.MacAddress
{ ...; write(client, dp) } }`: the accumulator is the list of points written so far. -/
def writeMatching (Sensors : List Sensor) (rawData : RuuviRawV2Data) : List DataPoint :=
  Sensors.foldl
    (fun written sensor =>
      if sensor.MacAddress = rawData.MacAddress then written ++ [mkDataPoint rawData sensor]
      else written)
    []

/-- The raw reading `parse_ruuvi_data` holds after its `binary.Read` calls, for a payload
with at least one byte: `readRawData` on `data[1:]`. -/
def decode (data : List Byte) : RuuviRawV2Data := (readRawData (data.drop 1)).1

/-- The return values of the ten `binary.Read` calls on `data[1:]`. -/
def decodeErrors (data : List Byte) : List (Option ReadErr) := (readRawData (data.drop 1)).2

/-- Go `parse_ruuvi_data(client, data)` with the package variable `Sensors` as a
parameter. The result is the list of points handed to `write`, in call order, or the
panic raised by `data[0]` on an empty slice. The database client is taken to accept
every point (`write` panics when it does not); the verbose printing is left out. -/
def parse_ruuvi_data (Sensors : List Sensor) (data : List Byte) :
    Except Panic (List DataPoint) :=
  match data[0]? with
  | none => .error .indexOutOfRange
  | some packet_format =>
      if packet_format = 5 then
        let reader := data.drop 1
        let rawData := (readRawData reader).1
        .ok (writeMatching Sensors rawData)
      else .ok []

/-- The hard-coded registry of src/scanner.go. -/
def Sensors : List Sensor :=
  [ ⟨"Family room", ⟨0xE0, 0xE7, 0xCD, 0x59, 0x5D, 0x74⟩⟩,
    ⟨"Office", ⟨0xD4, 0x7A, 0xAA, 0xC9, 0x5D, 0xD6⟩⟩,
    ⟨"Master bedroom", ⟨0xE6, 0x99, 0x94, 0x26, 0xC5, 0xC3⟩⟩,
    ⟨"Garage", ⟨0xD7, 0x44, 0x78, 0x0F, 0xA5, 0x65⟩⟩,
    ⟨"Kitchen", ⟨0xF6, 0x8C, 0xF2, 0x8D, 0x6E, 0xA3⟩⟩ ]

/-- The end-to-end payload of the specification:
`05 01 9C 00 28 C7 00 14 00 01 FF CE 00 0F C5 9C 02 C7 E6 99 94 26 C5 C3`. -/
def samplePayload : List Byte :=
  [0x05, 0x01, 0x9C, 0x00, 0x28, 0xC7, 0x00, 0x14, 0x00, 0x01, 0xFF, 0xCE,
   0x00, 0x0F, 0xC5, 0x9C, 0x02, 0xC7, 0xE6, 0x99, 0x94, 0x26, 0xC5, 0xC3]

/-! ## Reference readings used to state the layout -/

/-- The unsigned 16-bit big-endian value stored at offsets `i` and `i + 1` of `data`. -/
def be16At (data : List Byte) (i : Nat) : Nat :=
  (data.getD i 0).val * 256 + (data.getD (i + 1) 0).val

/-- The two's complement reading of a 16-bit pattern `u < 65536` as a signed value. -/
def signed16 (u : Nat) : Int := if u < 32768 then (u : Int) else (u : Int) - 65536

/-- Ten `binary.Read` calls that all returned `nil`. -/
def noErrors : List (Option ReadErr) :=
  [none, none, none, none, none, none, none, none, none, none]

/-! ## Concrete inputs -/

/-- The end-to-end payload with its last six bytes replaced by `01 02 03 04 05 06`. -/
def foreignPayload : List Byte :=
  [0x05, 0x01, 0x9C, 0x00, 0x28, 0xC7, 0x00, 0x14, 0x00, 0x01, 0xFF, 0xCE,
   0x00, 0x0F, 0xC5, 0x9C, 0x02, 0xC7, 0x01, 0x02, 0x03, 0x04, 0x05, 0x06]

/-- A registry holding one sensor whose address is `00:00:00:00:00:00`. -/
def zeroRegistry : List Sensor := [⟨"Hall", MacAddress.zero⟩]

/-- A registry in which two entries carry the address of the end-to-end payload. -/
def duplicateRegistry : List Sensor :=
  [ ⟨"Bedroom", ⟨0xE6, 0x99, 0x94, 0x26, 0xC5, 0xC3⟩⟩,
    ⟨"Bedroom window", ⟨0xE6, 0x99, 0x94, 0x26, 0xC5, 0xC3⟩⟩ ]

/-- The end-to-end payload with its last byte changed from `C3` to `C4`. -/
def variantPayload : List Byte :=
  [0x05, 0x01, 0x9C, 0x00, 0x28, 0xC7, 0x00, 0x14, 0x00, 0x01, 0xFF, 0xCE,
   0x00, 0x0F, 0xC5, 0x9C, 0x02, 0xC7, 0xE6, 0x99, 0x94, 0x26, 0xC5, 0xC4]

/-! ## Payload construction for the round trip

The repository has no encoder; the definitions of this section follow the wording of the
round-trip property: the tag byte 5 followed by the big-endian encoding of the fields in
layout order. -/

/-- A raw reading whose fields are in the range of their Go types. -/
def RuuviRawV2Data.InRange (r : RuuviRawV2Data) : Prop :=
  (-32768 ≤ r.Temperature ∧ r.Temperature < 32768) ∧
  r.Humidity < 65536 ∧
  r.AtmospherePressure < 65536 ∧
  (-32768 ≤ r.AccelerationX ∧ r.AccelerationX < 32768) ∧
  (-32768 ≤ r.AccelerationY ∧ r.AccelerationY < 32768) ∧
  (-32768 ≤ r.AccelerationZ ∧ r.AccelerationZ < 32768) ∧
  r.PowerInfo < 65536 ∧
  r.MovementCounter < 256 ∧
  r.MovementSequenceNumber < 65536

instance (r : RuuviRawV2Data) : Decidable r.InRange := by
  unfold RuuviRawV2Data.InRange
  infer_instance

/-- The high byte of a 16-bit pattern. -/
def highByte (u : Nat) : Byte := ⟨u / 256 % 256, Nat.mod_lt _ (by decide)⟩

/-- The low byte of a 16-bit pattern. -/
def lowByte (u : Nat) : Byte := ⟨u % 256, Nat.mod_lt _ (by decide)⟩

/-- The 16-bit two's complement pattern of a signed value. -/
def pattern16 (v : Int) : Nat := (v % 65536).toNat

/-- The payload built from a raw reading: tag byte 5, then each field big-endian in
layout order, then the six address bytes. -/
def encode (r : RuuviRawV2Data) : List Byte :=
  [5,
   highByte (pattern16 r.Temperature), lowByte (pattern16 r.Temperature),
   highByte r.Humidity, lowByte r.Humidity,
   highByte r.AtmospherePressure, lowByte r.AtmospherePressure,
   highByte (pattern16 r.AccelerationX), lowByte (pattern16 r.AccelerationX),
   highByte (pattern16 r.AccelerationY), lowByte (pattern16 r.AccelerationY),
   highByte (pattern16 r.AccelerationZ), lowByte (pattern16 r.AccelerationZ),
   highByte r.PowerInfo, lowByte r.PowerInfo,
   lowByte r.MovementCounter,
   highByte r.MovementSequenceNumber, lowByte r.MovementSequenceNumber,
   r.MacAddress.b0, r.MacAddress.b1, r.MacAddress.b2, r.MacAddress.b3, r.MacAddress.b4,
   r.MacAddress.b5]

/-- The raw reading carried by the end-to-end payload. -/
def sampleReading : RuuviRawV2Data :=
  ⟨412, 40, 50944, 5120, 511, -12800, 4037, 156, 711, ⟨0xE6, 0x99, 0x94, 0x26, 0xC5, 0xC3⟩⟩

/-! ## The registry address parser (scanner/json.go)

`macStringToBytes` calls `fmt.Sscanf(mac, "%02x:%02x:%02x:%02x:%02x:%02x", ...)` with six
`*uint8` operands. The definitions below transcribe the part of Go's `fmt` scanner
(`fmt/scan.go`) that this format exercises. The input is the list of runes of the
string; the scanner's global rune limit (`hugeWid`, 2^30 runes) is not modelled. -/

/-- The errors `fmt.Sscanf` can return for this format. -/
inductive ScanErr where
  /-- Go `io.ErrUnexpectedEOF`. -/
  | unexpectedEOF
  /-- Go "unexpected newline". -/
  | unexpectedNewline
  /-- Go "expected integer". -/
  | expectedInteger
  /-- Go "input does not match format". -/
  | inputDoesNotMatchFormat
  /-- Go "unsigned integer overflow on token". -/
  | integerOverflow
deriving DecidableEq, Repr

/-- Go `fmt.isSpace`: membership in the table `space` of scan.go. -/
def isSpace (r : Char) : Bool :=
  let c := r.toNat
  (0x0009 ≤ c && c ≤ 0x000d) || c == 0x0020 || c == 0x0085 || c == 0x00a0 || c == 0x1680 ||
    (0x2000 ≤ c && c ≤ 0x200a) || (0x2028 ≤ c && c ≤ 0x2029) || c == 0x202f || c == 0x205f ||
    c == 0x3000

/-- Go `(*ss).SkipSpace` in `Sscanf` mode (`nlIsSpace = false`): skips spaces, fails on a
newline. A carriage return directly before a newline is skipped, after which the newline
fails. -/
def SkipSpace : List Char → Except ScanErr (List Char)
  | [] => .ok []
  | r :: rest =>
    if r = '\r' ∧ rest.head? = some '\n' then SkipSpace rest
    else if r = '\n' then .error .unexpectedNewline
    else if isSpace r then SkipSpace rest
    else .ok (r :: rest)

/-- Go `hexadecimalDigits = "0123456789aAbBcCdDeEfF"`. -/
def hexadecimalDigits : List Char :=
  ['0', '1', '2', '3', '4', '5', '6', '7', '8', '9',
   'a', 'A', 'b', 'B', 'c', 'C', 'd', 'D', 'e', 'E', 'f', 'F']

/-- The test `indexRune(hexadecimalDigits, r) >= 0` of `(*ss).consume`. -/
def isHexDigit (r : Char) : Bool := hexadecimalDigits.contains r

/-- The loop `for s.accept(digits) {}` of `scanNumber` with `limit` runes left before the
width of the verb is exhausted: the digits accepted and the input left. -/
def acceptLoop : Nat → List Char → List Char × List Char
  | 0, input => ([], input)
  | _ + 1, [] => ([], [])
  | limit + 1, r :: rest =>
    if isHexDigit r then ((r :: (acceptLoop limit rest).1), (acceptLoop limit rest).2)
    else ([], r :: rest)

/-- Go `(*ss).scanNumber(hexadecimalDigits, false)` with `limit` runes of width left:
`notEOF`, one mandatory digit, then the accept loop. Returns the token and the input left. -/
def scanNumber : Nat → List Char → Except ScanErr (List Char × List Char)
  | 0, _ => .error .unexpectedEOF
  | _ + 1, [] => .error .unexpectedEOF
  | limit + 1, r :: rest =>
    if isHexDigit r then .ok (r :: (acceptLoop limit rest).1, (acceptLoop limit rest).2)
    else .error .expectedInteger

/-- The value of one hexadecimal digit in `strconv.ParseUint(tok, 16, 64)`. -/
def digitValue (c : Char) : Nat :=
  if '0' ≤ c ∧ c ≤ '9' then c.toNat - '0'.toNat
  else if 'a' ≤ c ∧ c ≤ 'f' then c.toNat - 'a'.toNat + 10
  else c.toNat - 'A'.toNat + 10

/-- Go `strconv.ParseUint(tok, 16, 64)` on a token of hexadecimal digits. -/
def parseUint (tok : List Char) : Nat := tok.foldl (fun n c => n * 16 + digitValue c) 0

/-- Go `(*ss).scanUint('x', 8)` under a width of `maxWid` runes, as reached from `doScanf`
(which has just skipped the leading space): the value and the input left. -/
def scanUint (maxWid : Nat) (input : List Char) : Except ScanErr (Nat × List Char) :=
  match scanNumber maxWid input with
  | .error e => .error e
  | .ok (tok, rest) =>
    if parseUint tok < 2 ^ 8 then .ok (parseUint tok, rest) else .error .integerOverflow

/-- The pieces of a parsed format string. -/
inductive FormatItem where
  /-- The verb `%0Nx` for a `*uint8` operand, with its width `N`. -/
  | hex (width : Nat)
  /-- One literal rune. -/
  | literal (c : Char)
deriving DecidableEq, Repr

/-- The format `"%02x:%02x:%02x:%02x:%02x:%02x"` as `doScanf` splits it. -/
def macFormat : List FormatItem :=
  [.hex 2, .literal ':', .hex 2, .literal ':', .hex 2, .literal ':', .hex 2, .literal ':',
   .hex 2, .literal ':', .hex 2]

/-- Go `(*ss).doScanf`: processes the format items in order on `input`; `stored` are the
values assigned to the operands so far. A literal must equal the next rune
(`advance`); a verb skips space and scans one number. Returns the values stored and the
error, if any; input left after the last item is ignored. -/
def doScanf : List FormatItem → List Char → List Nat → List Nat × Option ScanErr
  | [], _, stored => (stored, none)
  | .literal c :: format, input, stored =>
    match input with
    | [] => (stored, some .unexpectedEOF)
    | r :: rest =>
      if r = c then doScanf format rest stored
      else (stored, some .inputDoesNotMatchFormat)
  | .hex width :: format, input, stored =>
    match SkipSpace input with
    | .error e => (stored, some e)
    | .ok input1 =>
      match scanUint width input1 with
      | .error e => (stored, some e)
      | .ok (v, rest) => doScanf format rest (stored ++ [v])

/-- The Go conversion `uint8(v)`. -/
def uint8 (v : Nat) : Byte := ⟨v % 256, Nat.mod_lt _ (by decide)⟩

/-- Go `macStringToBytes(mac)`: the array `bytes` (zero where no value was stored) and
the error of `fmt.Sscanf`. -/
def macStringToBytes (mac : String) : MacAddress × Option ScanErr :=
  let r := doScanf macFormat mac.data []
  (⟨uint8 (r.1.getD 0 0), uint8 (r.1.getD 1 0), uint8 (r.1.getD 2 0), uint8 (r.1.getD 3 0),
      uint8 (r.1.getD 4 0), uint8 (r.1.getD 5 0)⟩, r.2)

/-- Go `(n *MacAddress) UnmarshalJSON` after `json.Unmarshal(b, &s)` has produced the
string `s`: the address to store, or the error returned. -/
def UnmarshalJSON (s : String) : Except ScanErr MacAddress :=
  match macStringToBytes s with
  | (_, some err) => .error err
  | (mac, none) => .ok mac

/-! ## Reference definitions for the address format -/

/-- The byte written as the two hexadecimal digits `h` `l`. -/
def hexPair (h l : Char) : Byte := uint8 (digitValue h * 16 + digitValue l)

/-- The strings of the registry format: exactly six two-digit hexadecimal pairs (either
case) separated by single colons. -/
def isMacString : List Char → Bool
  | [h0, l0, c0, h1, l1, c1, h2, l2, c2, h3, l3, c3, h4, l4, c4, h5, l5] =>
    isHexDigit h0 && isHexDigit l0 && c0 == ':' && isHexDigit h1 && isHexDigit l1 &&
    c1 == ':' && isHexDigit h2 && isHexDigit l2 && c2 == ':' && isHexDigit h3 &&
    isHexDigit l3 && c3 == ':' && isHexDigit h4 && isHexDigit l4 && c4 == ':' &&
    isHexDigit h5 && isHexDigit l5
  | _ => false

/-- One group as the scanner takes it: white space other than a newline (possibly none),
then one or two hexadecimal digits. -/
def IsGroup (g : List Char) : Prop :=
  ∃ sp ds : List Char, g = sp ++ ds ∧ (∀ c ∈ sp, isSpace c = true ∧ c ≠ '\n') ∧
    (ds.length = 1 ∨ ds.length = 2) ∧ ∀ c ∈ ds, isHexDigit c = true

/-- The strings the scanner accepts: six groups separated by single colons, followed by
anything. -/
def IsLenientMac (s : List Char) : Prop :=
  ∃ g0 g1 g2 g3 g4 g5 rest : List Char,
    IsGroup g0 ∧ IsGroup g1 ∧ IsGroup g2 ∧ IsGroup g3 ∧ IsGroup g4 ∧ IsGroup g5 ∧
    s = g0 ++ ':' :: (g1 ++ ':' :: (g2 ++ ':' :: (g3 ++ ':' :: (g4 ++ ':' :: (g5 ++ rest)))))

/-! ## Basic lemmas on the reader -/

theorem exists_cons_of_succ_le {α : Type} {n : Nat} {l : List α} (h : n + 1 ≤ l.length) :
    ∃ a t, l = a :: t ∧ n ≤ t.length := by
  cases l with
  | nil => simp at h
  | cons a t => exact ⟨a, t, rfl, by simpa using h⟩

theorem bigEndianUint16_cons (a b : Byte) (l : List Byte) :
    bigEndianUint16 (a :: b :: l) = a.val * 256 + b.val := by
  have hb : b.val < 2 ^ 8 := b.isLt
  simp only [bigEndianUint16, List.getD_cons_zero, List.getD_cons_succ]
  rw [Nat.or_comm, Nat.shiftLeft_eq, Nat.mul_comm, ← Nat.mul_add_lt_is_or hb]

theorem int16_cons (a b : Byte) (l : List Byte) :
    int16 (bigEndianUint16 (a :: b :: l)) = signed16 (a.val * 256 + b.val) := by
  have ha := a.isLt
  have hb := b.isLt
  rw [bigEndianUint16_cons, int16, signed16, Nat.mod_eq_of_lt (by omega)]

theorem readFull_one (a : Byte) (l : List Byte) : readFull (a :: l) 1 = (.ok [a], l) := by
  simp [readFull]

theorem readFull_two (a b : Byte) (l : List Byte) :
    readFull (a :: b :: l) 2 = (.ok [a, b], l) := by
  simp [readFull]

theorem readFull_six (a b c d e f : Byte) (l : List Byte) :
    readFull (a :: b :: c :: d :: e :: f :: l) 6 = (.ok [a, b, c, d, e, f], l) := by
  simp [readFull]

theorem readFull_nil (n : Nat) : readFull [] (n + 1) = (.error .EOF, []) := by
  simp [readFull]

theorem readFull_short (r : List Byte) (n : Nat) (h0 : r ≠ []) (h : r.length < n) :
    readFull r n = (.error .ErrUnexpectedEOF, []) := by
  have : r.length ≠ 0 := by simpa using h0
  simp [readFull, Nat.not_le.mpr h, this]

theorem binaryReadUint16_cons (a b : Byte) (l : List Byte) (x : Nat) :
    binaryReadUint16 (a :: b :: l) x = (a.val * 256 + b.val, l, none) := by
  simp only [binaryReadUint16, readFull_two, bigEndianUint16_cons]

theorem binaryReadInt16_cons (a b : Byte) (l : List Byte) (x : Int) :
    binaryReadInt16 (a :: b :: l) x = (signed16 (a.val * 256 + b.val), l, none) := by
  simp only [binaryReadInt16, readFull_two, int16_cons]

theorem binaryReadUint8_cons (a : Byte) (l : List Byte) (x : Nat) :
    binaryReadUint8 (a :: l) x = (a.val, l, none) := by
  simp only [binaryReadUint8, readFull_one, List.getD_cons_zero]

theorem binaryReadMac_cons (a b c d e f : Byte) (l : List Byte) (x : MacAddress) :
    binaryReadMac (a :: b :: c :: d :: e :: f :: l) x = (⟨a, b, c, d, e, f⟩, l, none) := by
  simp only [binaryReadMac, readFull_six, List.getD_cons_zero, List.getD_cons_succ]

theorem binaryReadUint16_nil (x : Nat) : binaryReadUint16 [] x = (x, [], some .EOF) := by
  simp only [binaryReadUint16, readFull_nil]

theorem binaryReadInt16_nil (x : Int) : binaryReadInt16 [] x = (x, [], some .EOF) := by
  simp only [binaryReadInt16, readFull_nil]

theorem binaryReadUint8_nil (x : Nat) : binaryReadUint8 [] x = (x, [], some .EOF) := by
  simp only [binaryReadUint8, readFull_nil]

theorem binaryReadMac_nil (x : MacAddress) : binaryReadMac [] x = (x, [], some .EOF) := by
  simp only [binaryReadMac, readFull_nil]

theorem binaryReadUint16_one (a : Byte) (x : Nat) :
    binaryReadUint16 [a] x = (x, [], some .ErrUnexpectedEOF) := by
  simp only [binaryReadUint16, readFull_short [a] 2 (by simp) (by simp)]

theorem binaryReadInt16_one (a : Byte) (x : Int) :
    binaryReadInt16 [a] x = (x, [], some .ErrUnexpectedEOF) := by
  simp only [binaryReadInt16, readFull_short [a] 2 (by simp) (by simp)]

theorem binaryReadMac_short (r : List Byte) (x : MacAddress) (h0 : r ≠ [])
    (h : r.length < 6) : binaryReadMac r x = (x, [], some .ErrUnexpectedEOF) := by
  simp only [binaryReadMac, readFull_short r 6 h0 h]

/-- The ten reads on a reader holding at least 23 bytes. -/
theorem readRawData_cons (a1 a2 a3 a4 a5 a6 a7 a8 a9 a10 a11 a12 a13 a14 a15 a16 a17 a18 a19
    a20 a21 a22 a23 : Byte) (tail : List Byte) :
    readRawData (a1 :: a2 :: a3 :: a4 :: a5 :: a6 :: a7 :: a8 :: a9 :: a10 :: a11 :: a12 ::
      a13 :: a14 :: a15 :: a16 :: a17 :: a18 :: a19 :: a20 :: a21 :: a22 :: a23 :: tail) =
    (⟨signed16 (a1.val * 256 + a2.val), a3.val * 256 + a4.val, a5.val * 256 + a6.val,
      signed16 (a7.val * 256 + a8.val), signed16 (a9.val * 256 + a10.val),
      signed16 (a11.val * 256 + a12.val), a13.val * 256 + a14.val, a15.val,
      a16.val * 256 + a17.val, ⟨a18, a19, a20, a21, a22, a23⟩⟩, noErrors) := by
  simp only [readRawData, binaryReadInt16_cons, binaryReadUint16_cons, binaryReadUint8_cons,
    binaryReadMac_cons, noErrors]

/-- A payload of at least 24 bytes, spelled out. -/
theorem exists_payload_of_length {data : List Byte} (hlen : 24 ≤ data.length) :
    ∃ a0 a1 a2 a3 a4 a5 a6 a7 a8 a9 a10 a11 a12 a13 a14 a15 a16 a17 a18 a19 a20 a21 a22 a23 tail,
      data = a0 :: a1 :: a2 :: a3 :: a4 :: a5 :: a6 :: a7 :: a8 :: a9 :: a10 :: a11 :: a12 ::
        a13 :: a14 :: a15 :: a16 :: a17 :: a18 :: a19 :: a20 :: a21 :: a22 :: a23 :: tail := by
  obtain ⟨a0, t0, rfl, h0⟩ := exists_cons_of_succ_le hlen
  obtain ⟨a1, t1, rfl, h1⟩ := exists_cons_of_succ_le h0
  obtain ⟨a2, t2, rfl, h2⟩ := exists_cons_of_succ_le h1
  obtain ⟨a3, t3, rfl, h3⟩ := exists_cons_of_succ_le h2
  obtain ⟨a4, t4, rfl, h4⟩ := exists_cons_of_succ_le h3
  obtain ⟨a5, t5, rfl, h5⟩ := exists_cons_of_succ_le h4
  obtain ⟨a6, t6, rfl, h6⟩ := exists_cons_of_succ_le h5
  obtain ⟨a7, t7, rfl, h7⟩ := exists_cons_of_succ_le h6
  obtain ⟨a8, t8, rfl, h8⟩ := exists_cons_of_succ_le h7
  obtain ⟨a9, t9, rfl, h9⟩ := exists_cons_of_succ_le h8
  obtain ⟨a10, t10, rfl, h10⟩ := exists_cons_of_succ_le h9
  obtain ⟨a11, t11, rfl, h11⟩ := exists_cons_of_succ_le h10
  obtain ⟨a12, t12, rfl, h12⟩ := exists_cons_of_succ_le h11
  obtain ⟨a13, t13, rfl, h13⟩ := exists_cons_of_succ_le h12
  obtain ⟨a14, t14, rfl, h14⟩ := exists_cons_of_succ_le h13
  obtain ⟨a15, t15, rfl, h15⟩ := exists_cons_of_succ_le h14
  obtain ⟨a16, t16, rfl, h16⟩ := exists_cons_of_succ_le h15
  obtain ⟨a17, t17, rfl, h17⟩ := exists_cons_of_succ_le h16
  obtain ⟨a18, t18, rfl, h18⟩ := exists_cons_of_succ_le h17
  obtain ⟨a19, t19, rfl, h19⟩ := exists_cons_of_succ_le h18
  obtain ⟨a20, t20, rfl, h20⟩ := exists_cons_of_succ_le h19
  obtain ⟨a21, t21, rfl, h21⟩ := exists_cons_of_succ_le h20
  obtain ⟨a22, t22, rfl, h22⟩ := exists_cons_of_succ_le h21
  obtain ⟨a23, t23, rfl, _⟩ := exists_cons_of_succ_le h22
  exact ⟨a0, a1, a2, a3, a4, a5, a6, a7, a8, a9, a10, a11, a12, a13, a14, a15, a16, a17,
    a18, a19, a20, a21, a22, a23, t23, rfl⟩

/-- The layout of a payload of at least 24 bytes, by offset. -/
theorem readRawData_layout (data : List Byte) (hlen : 24 ≤ data.length) :
    readRawData (data.drop 1) =
      ({ Temperature := signed16 (be16At data 1)
         Humidity := be16At data 3
         AtmospherePressure := be16At data 5
         AccelerationX := signed16 (be16At data 7)
         AccelerationY := signed16 (be16At data 9)
         AccelerationZ := signed16 (be16At data 11)
         PowerInfo := be16At data 13
         MovementCounter := (data.getD 15 0).val
         MovementSequenceNumber := be16At data 16
         MacAddress := ⟨data.getD 18 0, data.getD 19 0, data.getD 20 0, data.getD 21 0,
           data.getD 22 0, data.getD 23 0⟩ }, noErrors) := by
  obtain ⟨a0, a1, a2, a3, a4, a5, a6, a7, a8, a9, a10, a11, a12, a13, a14, a15, a16, a17,
    a18, a19, a20, a21, a22, a23, tail, rfl⟩ := exists_payload_of_length hlen
  simp only [List.drop_succ_cons, List.drop_zero, readRawData_cons, be16At,
    List.getD_cons_zero, List.getD_cons_succ]

/-! ## Lemmas on the registry loop -/

theorem foldl_writeMatching (Sensors : List Sensor) (rawData : RuuviRawV2Data)
    (written : List DataPoint) :
    Sensors.foldl
      (fun written sensor =>
        if sensor.MacAddress = rawData.MacAddress then written ++ [mkDataPoint rawData sensor]
        else written)
      written =
    written ++ (Sensors.filter (fun s => decide (s.MacAddress = rawData.MacAddress))).map
      (mkDataPoint rawData) := by
  induction Sensors generalizing written with
  | nil => simp
  | cons s rest ih =>
    by_cases h : s.MacAddress = rawData.MacAddress
    · simp [List.foldl_cons, ih, h, List.filter_cons]
    · simp [List.foldl_cons, ih, h, List.filter_cons]

/-- The loop writes one point for each registry entry carrying the decoded address, in
registry order. -/
theorem writeMatching_eq (Sensors : List Sensor) (rawData : RuuviRawV2Data) :
    writeMatching Sensors rawData =
      (Sensors.filter (fun s => decide (s.MacAddress = rawData.MacAddress))).map
        (mkDataPoint rawData) := by
  simp [writeMatching, foldl_writeMatching]

/-- On a payload whose first byte is 5 the function returns normally with the points
written by the loop for the decoded reading. -/
theorem parse_of_tag_five (Sensors : List Sensor) (data : List Byte)
    (htag : data[0]? = some 5) :
    parse_ruuvi_data Sensors data = .ok (writeMatching Sensors (decode data)) := by
  simp [parse_ruuvi_data, htag, decode]

/-- On a non-empty payload whose first byte is not 5 nothing is written. -/
theorem parse_of_tag_ne_five (Sensors : List Sensor) (b : Byte) (rest : List Byte)
    (htag : b ≠ 5) : parse_ruuvi_data Sensors (b :: rest) = .ok [] := by
  simp [parse_ruuvi_data, htag]

/-! ## The decoding and attribution pipeline -/

theorem filter_eq_singleton_of_countP {α : Type} (p : α → Bool) (l : List α) (e : α)
    (hcount : l.countP p = 1) (hmem : e ∈ l) (hp : p e = true) : l.filter p = [e] := by
  have hlen : (l.filter p).length = 1 := by rw [← List.countP_eq_length_filter]; exact hcount
  have hin : e ∈ l.filter p := List.mem_filter.mpr ⟨hmem, hp⟩
  match hf : l.filter p, hlen, hin with
  | [x], _, hin =>
    simp at hin
    simp [hin]

theorem decode_samplePayload :
    decode samplePayload =
      ⟨412, 40, 50944, 5120, 511, -12800, 4037, 156, 711, ⟨0xE6, 0x99, 0x94, 0x26, 0xC5, 0xC3⟩⟩ := by
  decide

/-- C1: for every registry and every payload of at least 24 bytes whose first byte is 5
and whose decoded hardware address is the address of exactly one registry entry, all ten
reads succeed and exactly one record is handed to the sink, with Location the name of
that entry, Temperature = raw temperature × 0.005, Humidity = raw humidity × 0.0025,
AtmospherePressure = (raw pressure + 50000) / 1000 and
BatteryVoltage = ((raw powerInfo >> 5) + 1600) / 1000, over exact rationals. -/
theorem parse_ruuvi_data_unique_match (Sensors : List Sensor) (data : List Byte)
    (entry : Sensor) (hlen : 24 ≤ data.length) (htag : data[0]? = some 5)
    (hmem : entry ∈ Sensors) (haddr : entry.MacAddress = (decode data).MacAddress)
    (hone : Sensors.countP (fun s => decide (s.MacAddress = (decode data).MacAddress)) = 1) :
    decodeErrors data = noErrors ∧
    parse_ruuvi_data Sensors data = .ok
      [{ Bucket := "Sensor data"
         Location := entry.Location
         Temperature := ((decode data).Temperature : ℚ) * 0.005
         Humidity := ((decode data).Humidity : ℚ) * 0.0025
         AtmospherePressure := (((decode data).AtmospherePressure : ℚ) + 50000) / 1000
         RSSI := 0
         BatteryVoltage := ((((decode data).PowerInfo >>> 5 : Nat) : ℚ) + 1600) / 1000
         Time := 0 }] := by
  refine ⟨?_, ?_⟩
  · simp only [decodeErrors, readRawData_layout data hlen]
  · rw [parse_of_tag_five Sensors data htag, writeMatching_eq,
      filter_eq_singleton_of_countP _ Sensors entry hone hmem (by simpa using haddr)]
    rfl

/-- The end-to-end scenario: the sample payload against the hard-coded registry gives
exactly one record, for "Master bedroom". -/
theorem parse_ruuvi_data_unique_match_witness :
    24 ≤ samplePayload.length ∧ samplePayload[0]? = some 5 ∧
    Sensors.countP (fun s => decide (s.MacAddress = (decode samplePayload).MacAddress)) = 1 ∧
    parse_ruuvi_data Sensors samplePayload = .ok
      [{ Bucket := "Sensor data"
         Location := "Master bedroom"
         Temperature := 2.06
         Humidity := 0.1
         AtmospherePressure := 100.944
         RSSI := 0
         BatteryVoltage := 1.726
         Time := 0 }] := by
  refine ⟨by decide, by decide, by decide, ?_⟩
  have h := (parse_ruuvi_data_unique_match Sensors samplePayload
    ⟨"Master bedroom", ⟨0xE6, 0x99, 0x94, 0x26, 0xC5, 0xC3⟩⟩
    (by decide) (by decide) (by decide) (by decide) (by decide)).2
  rw [h, decode_samplePayload]
  norm_num [Nat.shiftRight_eq_div_pow]

/-- C2: for every payload whose first byte is 5 and which holds every field (at least 24
bytes), all ten reads return no error and the raw reading holds, read consecutively from
offset 1 and big-endian: temperature (signed, offsets 1-2), humidity (3-4),
pressure (5-6), acceleration X, Y, Z (signed, 7-8, 9-10, 11-12), power-info (13-14),
movement counter (15), movement sequence number (16-17) and the six address bytes
(18-23) unchanged; this reading, unaltered, is the one the registry loop works on. -/
theorem decode_layout (data : List Byte) (htag : data[0]? = some 5)
    (hlen : 24 ≤ data.length) :
    decodeErrors data = noErrors ∧
    decode data =
      { Temperature := signed16 (be16At data 1)
        Humidity := be16At data 3
        AtmospherePressure := be16At data 5
        AccelerationX := signed16 (be16At data 7)
        AccelerationY := signed16 (be16At data 9)
        AccelerationZ := signed16 (be16At data 11)
        PowerInfo := be16At data 13
        MovementCounter := (data.getD 15 0).val
        MovementSequenceNumber := be16At data 16
        MacAddress := ⟨data.getD 18 0, data.getD 19 0, data.getD 20 0, data.getD 21 0,
          data.getD 22 0, data.getD 23 0⟩ } ∧
    ∀ Sensors : List Sensor,
      parse_ruuvi_data Sensors data = .ok (writeMatching Sensors (decode data)) := by
  refine ⟨?_, ?_, fun Sensors => parse_of_tag_five Sensors data htag⟩
  · simp only [decodeErrors, readRawData_layout data hlen]
  · simp only [decode, readRawData_layout data hlen]

/-- The layout theorem at the end-to-end payload. -/
theorem decode_layout_witness :
    samplePayload[0]? = some 5 ∧ 24 ≤ samplePayload.length ∧
    decodeErrors samplePayload = noErrors ∧
    decode samplePayload =
      ⟨412, 40, 50944, 5120, 511, -12800, 4037, 156, 711,
        ⟨0xE6, 0x99, 0x94, 0x26, 0xC5, 0xC3⟩⟩ := by
  have h := decode_layout samplePayload (by decide) (by decide)
  refine ⟨by decide, by decide, h.1, ?_⟩
  rw [h.2.1]
  decide

/-- C6: for every registry and every payload whose first byte is 5, when the decoded
hardware address differs from the address of every registry entry, `parse_ruuvi_data`
returns normally and hands no record to the sink. -/
theorem parse_ruuvi_data_no_match (Sensors : List Sensor) (data : List Byte)
    (htag : data[0]? = some 5)
    (hno : ∀ s ∈ Sensors, s.MacAddress ≠ (decode data).MacAddress) :
    parse_ruuvi_data Sensors data = .ok [] := by
  rw [parse_of_tag_five Sensors data htag, writeMatching_eq]
  have : Sensors.filter (fun s => decide (s.MacAddress = (decode data).MacAddress)) = [] := by
    rw [List.filter_eq_nil_iff]
    intro s hs
    simpa using hno s hs
  rw [this]
  rfl

/-- The negative end-to-end scenario against the hard-coded registry. -/
theorem parse_ruuvi_data_no_match_witness :
    foreignPayload.take 18 = samplePayload.take 18 ∧
    (decode foreignPayload).MacAddress = ⟨1, 2, 3, 4, 5, 6⟩ ∧
    parse_ruuvi_data Sensors foreignPayload = .ok [] :=
  ⟨by decide, by decide,
    parse_ruuvi_data_no_match Sensors foreignPayload (by decide) (by decide)⟩

/-! ## Short payloads -/

/-- The reading decoded from a non-empty payload of fewer than 24 bytes: a field is taken
from the payload when the payload holds all of its bytes and is zero otherwise; the
address is always zero. -/
theorem decode_short (data : List Byte) (hne : data ≠ []) (hlen : data.length < 24) :
    decode data =
      { Temperature := if 3 ≤ data.length then signed16 (be16At data 1) else 0
        Humidity := if 5 ≤ data.length then be16At data 3 else 0
        AtmospherePressure := if 7 ≤ data.length then be16At data 5 else 0
        AccelerationX := if 9 ≤ data.length then signed16 (be16At data 7) else 0
        AccelerationY := if 11 ≤ data.length then signed16 (be16At data 9) else 0
        AccelerationZ := if 13 ≤ data.length then signed16 (be16At data 11) else 0
        PowerInfo := if 15 ≤ data.length then be16At data 13 else 0
        MovementCounter := if 16 ≤ data.length then (data.getD 15 0).val else 0
        MovementSequenceNumber := if 18 ≤ data.length then be16At data 16 else 0
        MacAddress := MacAddress.zero } := by
  rcases data with _ | ⟨a0, data⟩
  · exact absurd rfl hne
  iterate 23
    rcases data with _ | ⟨_, data⟩
    · simp [decode, readRawData, RuuviRawV2Data.zero, binaryReadInt16_cons,
        binaryReadUint16_cons, binaryReadUint8_cons, binaryReadInt16_nil, binaryReadUint16_nil,
        binaryReadUint8_nil, binaryReadMac_nil, binaryReadInt16_one, binaryReadUint16_one,
        binaryReadMac_short, be16At]
  simp at hlen
  omega

/-- The last of the ten reads (the address) returns an error on a non-empty payload of
fewer than 24 bytes. -/
theorem decodeErrors_short (data : List Byte) (hne : data ≠ []) (hlen : data.length < 24) :
    (decodeErrors data).getD 9 none ≠ none := by
  rcases data with _ | ⟨a0, data⟩
  · exact absurd rfl hne
  iterate 23
    rcases data with _ | ⟨_, data⟩
    · simp [decodeErrors, readRawData, RuuviRawV2Data.zero, binaryReadInt16_cons,
        binaryReadUint16_cons, binaryReadUint8_cons, binaryReadInt16_nil, binaryReadUint16_nil,
        binaryReadUint8_nil, binaryReadMac_nil, binaryReadInt16_one, binaryReadUint16_one,
        binaryReadMac_short]
  simp at hlen
  omega

theorem ne_nil_of_head (data : List Byte) (b : Byte) (htag : data[0]? = some b) :
    data ≠ [] := by
  rintro rfl
  simp at htag

/-- C3 as stated fails: the one-byte payload `05` is handed to the sink as a record of
zeros when the registry holds the zero address, and the three-byte payload `05 01 9C`
decodes to a partially populated reading (temperature 412, everything else zero). -/
theorem parse_ruuvi_data_truncated_counterexample :
    ([5] : List Byte)[0]? = some 5 ∧ ([5] : List Byte).length < 19 ∧
    parse_ruuvi_data zeroRegistry [5] = .ok
      [{ Bucket := "Sensor data", Location := "Hall", Temperature := 0, Humidity := 0,
         AtmospherePressure := 50, RSSI := 0, BatteryVoltage := 1.6, Time := 0 }] ∧
    decode [5, 0x01, 0x9C] = ⟨412, 0, 0, 0, 0, 0, 0, 0, 0, MacAddress.zero⟩ := by
  refine ⟨by decide, by decide, ?_, by decide⟩
  rw [parse_of_tag_five _ _ (by decide), writeMatching_eq]
  have hd : decode [5] = RuuviRawV2Data.zero := by decide
  have hf : zeroRegistry.filter (fun s => decide (s.MacAddress = (decode [5]).MacAddress))
      = zeroRegistry := by decide
  rw [hf, hd]
  simp [zeroRegistry, mkDataPoint, Temperature, Humidity, AtmospherePressure, BatteryVoltage,
    RuuviRawV2Data.zero]
  norm_num

/-- C3 (amended): for every payload whose first byte is 5 and whose length is less than
19, the read of the address returns an error that the program discards; the raw reading
keeps each field whose bytes are all present, has every other field zero and has the
address `00:00:00:00:00:00`; for every registry the function returns normally, handing
one record per entry whose address is all zeros, hence no record when the registry has
no such entry. -/
theorem parse_ruuvi_data_truncated (data : List Byte) (htag : data[0]? = some 5)
    (hlen : data.length < 19) :
    (decodeErrors data).getD 9 none ≠ none ∧
    decode data =
      { Temperature := if 3 ≤ data.length then signed16 (be16At data 1) else 0
        Humidity := if 5 ≤ data.length then be16At data 3 else 0
        AtmospherePressure := if 7 ≤ data.length then be16At data 5 else 0
        AccelerationX := if 9 ≤ data.length then signed16 (be16At data 7) else 0
        AccelerationY := if 11 ≤ data.length then signed16 (be16At data 9) else 0
        AccelerationZ := if 13 ≤ data.length then signed16 (be16At data 11) else 0
        PowerInfo := if 15 ≤ data.length then be16At data 13 else 0
        MovementCounter := if 16 ≤ data.length then (data.getD 15 0).val else 0
        MovementSequenceNumber := if 18 ≤ data.length then be16At data 16 else 0
        MacAddress := MacAddress.zero } ∧
    (∀ Sensors : List Sensor,
      parse_ruuvi_data Sensors data = .ok
        ((Sensors.filter (fun s => decide (s.MacAddress = MacAddress.zero))).map
          (mkDataPoint (decode data)))) ∧
    (∀ Sensors : List Sensor, (∀ s ∈ Sensors, s.MacAddress ≠ MacAddress.zero) →
      parse_ruuvi_data Sensors data = .ok []) := by
  have hne := ne_nil_of_head data 5 htag
  have hd := decode_short data hne (by omega)
  have hmac : (decode data).MacAddress = MacAddress.zero := by rw [hd]
  have hall : ∀ Sensors : List Sensor,
      parse_ruuvi_data Sensors data = .ok
        ((Sensors.filter (fun s => decide (s.MacAddress = MacAddress.zero))).map
          (mkDataPoint (decode data))) := by
    intro Sensors
    rw [parse_of_tag_five Sensors data htag, writeMatching_eq, hmac]
  refine ⟨decodeErrors_short data hne (by omega), hd, hall, ?_⟩
  intro Sensors hno
  have : Sensors.filter (fun s => decide (s.MacAddress = MacAddress.zero)) = [] := by
    rw [List.filter_eq_nil_iff]
    intro s hs
    simpa using hno s hs
  rw [hall, this]
  rfl

/-- The amended C3 at the payload `05 01 9C` and the hard-coded registry. -/
theorem parse_ruuvi_data_truncated_witness :
    ([5, 0x01, 0x9C] : List Byte)[0]? = some 5 ∧ ([5, 0x01, 0x9C] : List Byte).length < 19 ∧
    (decode [5, 0x01, 0x9C]).MacAddress = MacAddress.zero ∧
    parse_ruuvi_data Sensors [5, 0x01, 0x9C] = .ok [] := by
  have h := parse_ruuvi_data_truncated [5, 0x01, 0x9C] (by decide) (by decide)
  refine ⟨by decide, by decide, ?_, h.2.2.2 Sensors (by decide)⟩
  rw [h.2.1]

/-! ## The empty payload -/

/-- C4 (the failing input): on the empty payload `data[0]` is out of range and
`parse_ruuvi_data` panics, whatever the registry. -/
theorem parse_ruuvi_data_empty_panics (Sensors : List Sensor) :
    parse_ruuvi_data Sensors [] = .error .indexOutOfRange := by
  rfl

/-! ## Duplicate registry addresses -/

/-- C5 as stated fails: with two registry entries carrying the address of the end-to-end
payload, two records are handed to the sink, one per entry, not only the first. -/
theorem parse_ruuvi_data_duplicates_counterexample :
    samplePayload[0]? = some 5 ∧ 24 ≤ samplePayload.length ∧
    (∀ s ∈ duplicateRegistry, s.MacAddress = (decode samplePayload).MacAddress) ∧
    parse_ruuvi_data duplicateRegistry samplePayload = .ok
      [mkDataPoint (decode samplePayload) ⟨"Bedroom", ⟨0xE6, 0x99, 0x94, 0x26, 0xC5, 0xC3⟩⟩,
       mkDataPoint (decode samplePayload)
         ⟨"Bedroom window", ⟨0xE6, 0x99, 0x94, 0x26, 0xC5, 0xC3⟩⟩] ∧
    ¬ ∃ p, parse_ruuvi_data duplicateRegistry samplePayload = .ok [p] := by
  have hf : duplicateRegistry.filter
      (fun s => decide (s.MacAddress = (decode samplePayload).MacAddress))
      = duplicateRegistry := by decide
  have hp : parse_ruuvi_data duplicateRegistry samplePayload = .ok
      [mkDataPoint (decode samplePayload) ⟨"Bedroom", ⟨0xE6, 0x99, 0x94, 0x26, 0xC5, 0xC3⟩⟩,
       mkDataPoint (decode samplePayload)
         ⟨"Bedroom window", ⟨0xE6, 0x99, 0x94, 0x26, 0xC5, 0xC3⟩⟩] := by
    rw [parse_of_tag_five _ _ (by decide), writeMatching_eq, hf]
    rfl
  refine ⟨by decide, by decide, by decide, hp, ?_⟩
  rintro ⟨p, h⟩
  rw [hp] at h
  simp at h

/-- C5 (amended): for every registry and every payload of at least 24 bytes whose first
byte is 5, one record is handed to the sink for each registry entry whose address is
the decoded hardware address, in list order, each with the Location of its entry and the
converted fields of the reading; with `n` such entries the sink receives `n` records. -/
theorem parse_ruuvi_data_all_matches (Sensors : List Sensor) (data : List Byte)
    (htag : data[0]? = some 5) (hlen : 24 ≤ data.length) :
    decodeErrors data = noErrors ∧
    ∃ records : List DataPoint,
      parse_ruuvi_data Sensors data = .ok records ∧
      records =
        (Sensors.filter (fun s => decide (s.MacAddress = (decode data).MacAddress))).map
          (fun s =>
            { Bucket := "Sensor data"
              Location := s.Location
              Temperature := ((decode data).Temperature : ℚ) * 0.005
              Humidity := ((decode data).Humidity : ℚ) * 0.0025
              AtmospherePressure := (((decode data).AtmospherePressure : ℚ) + 50000) / 1000
              RSSI := 0
              BatteryVoltage := ((((decode data).PowerInfo >>> 5 : Nat) : ℚ) + 1600) / 1000
              Time := 0 }) ∧
      records.length =
        Sensors.countP (fun s => decide (s.MacAddress = (decode data).MacAddress)) := by
  refine ⟨?_, _, parse_of_tag_five Sensors data htag, ?_, ?_⟩
  · simp only [decodeErrors, readRawData_layout data hlen]
  · rw [writeMatching_eq]
    rfl
  · rw [writeMatching_eq, List.length_map, List.countP_eq_length_filter]

/-- The amended C5 on the registry with a duplicated address: two records, in list
order. -/
theorem parse_ruuvi_data_all_matches_witness :
    samplePayload[0]? = some 5 ∧ 24 ≤ samplePayload.length ∧
    ∃ records : List DataPoint,
      parse_ruuvi_data duplicateRegistry samplePayload = .ok records ∧
      records.map (fun r => r.Location) = ["Bedroom", "Bedroom window"] := by
  obtain ⟨_, records, hp, hr, _⟩ :=
    parse_ruuvi_data_all_matches duplicateRegistry samplePayload (by decide) (by decide)
  refine ⟨by decide, by decide, records, hp, ?_⟩
  have hf : duplicateRegistry.filter
      (fun s => decide (s.MacAddress = (decode samplePayload).MacAddress))
      = duplicateRegistry := by decide
  rw [hr, hf]
  simp [duplicateRegistry]

/-! ## Trailing bytes -/

/-- C7 as stated fails: bytes 19 to 23 belong to the hardware address. The end-to-end
payload and its variant agree on their first 19 bytes but decode to different addresses
and give different records; and on the first 19 bytes alone the address read fails and
the address stays zero. -/
theorem decode_ignores_after_19_counterexample :
    samplePayload[0]? = some 5 ∧ variantPayload[0]? = some 5 ∧
    19 ≤ samplePayload.length ∧ 19 ≤ variantPayload.length ∧
    samplePayload.take 19 = variantPayload.take 19 ∧
    decode samplePayload ≠ decode variantPayload ∧
    parse_ruuvi_data Sensors samplePayload ≠ parse_ruuvi_data Sensors variantPayload ∧
    (samplePayload.take 19).length = 19 ∧
    decodeErrors (samplePayload.take 19) ≠ noErrors ∧
    decode (samplePayload.take 19) ≠ decode samplePayload := by
  refine ⟨by decide, by decide, by decide, by decide, by decide, by decide, ?_, by decide,
    by decide, by decide⟩
  have h1 : Sensors.filter
      (fun s => decide (s.MacAddress = (decode samplePayload).MacAddress))
      = [⟨"Master bedroom", ⟨0xE6, 0x99, 0x94, 0x26, 0xC5, 0xC3⟩⟩] := by decide
  have h2 : Sensors.filter
      (fun s => decide (s.MacAddress = (decode variantPayload).MacAddress)) = [] := by decide
  rw [parse_of_tag_five _ _ (by decide), parse_of_tag_five _ _ (by decide), writeMatching_eq,
    writeMatching_eq, h1, h2]
  simp

/-- C7 (amended): for every payload whose first byte is 5 and whose length is at least
24, all ten reads succeed and every byte at offset 24 and beyond is ignored: two such
payloads that agree on their first 24 bytes decode to the same raw reading (hardware
address included) and, for every registry, produce the same records. -/
theorem decode_ignores_after_24 (d1 d2 : List Byte)
    (htag1 : d1[0]? = some 5) (htag2 : d2[0]? = some 5)
    (hlen1 : 24 ≤ d1.length) (hlen2 : 24 ≤ d2.length) (hagree : d1.take 24 = d2.take 24) :
    decodeErrors d1 = noErrors ∧ decodeErrors d2 = noErrors ∧
    decode d1 = decode d2 ∧
    ∀ Sensors : List Sensor, parse_ruuvi_data Sensors d1 = parse_ruuvi_data Sensors d2 := by
  have hdec : decode d1 = decode d2 := by
    obtain ⟨a0, a1, a2, a3, a4, a5, a6, a7, a8, a9, a10, a11, a12, a13, a14, a15, a16, a17,
      a18, a19, a20, a21, a22, a23, t1, rfl⟩ := exists_payload_of_length hlen1
    obtain ⟨b0, b1, b2, b3, b4, b5, b6, b7, b8, b9, b10, b11, b12, b13, b14, b15, b16, b17,
      b18, b19, b20, b21, b22, b23, t2, rfl⟩ := exists_payload_of_length hlen2
    simp only [List.take_succ_cons, List.take_zero, List.cons.injEq, and_true] at hagree
    obtain ⟨rfl, rfl, rfl, rfl, rfl, rfl, rfl, rfl, rfl, rfl, rfl, rfl, rfl, rfl, rfl, rfl,
      rfl, rfl, rfl, rfl, rfl, rfl, rfl, rfl⟩ := hagree
    simp only [decode, List.drop_succ_cons, List.drop_zero, readRawData_cons]
  refine ⟨?_, ?_, hdec, ?_⟩
  · simp only [decodeErrors, readRawData_layout d1 hlen1]
  · simp only [decodeErrors, readRawData_layout d2 hlen2]
  · intro Sensors
    rw [parse_of_tag_five Sensors d1 htag1, parse_of_tag_five Sensors d2 htag2, hdec]

/-- The amended C7 at the end-to-end payload and the same payload followed by two more
bytes. -/
theorem decode_ignores_after_24_witness :
    samplePayload[0]? = some 5 ∧ 24 ≤ samplePayload.length ∧
    24 ≤ (samplePayload ++ [0xAB, 0xCD]).length ∧
    samplePayload.take 24 = (samplePayload ++ [0xAB, 0xCD]).take 24 ∧
    decode samplePayload = decode (samplePayload ++ [0xAB, 0xCD]) ∧
    parse_ruuvi_data Sensors samplePayload =
      parse_ruuvi_data Sensors (samplePayload ++ [0xAB, 0xCD]) := by
  have h := decode_ignores_after_24 samplePayload (samplePayload ++ [0xAB, 0xCD])
    (by decide) (by decide) (by decide) (by decide) (by decide)
  exact ⟨by decide, by decide, by decide, by decide, h.2.2.1, h.2.2.2 Sensors⟩

/-! ## Unit conversion -/

/-- C8 as stated fails: for raw powerInfo 50588 the battery voltage is not 3.18275. -/
theorem BatteryVoltage_50588_counterexample :
    BatteryVoltage { RuuviRawV2Data.zero with PowerInfo := 50588 } ≠ 3.18275 := by
  norm_num [BatteryVoltage, Nat.shiftRight_eq_div_pow]

/-- C8 (amended): for raw powerInfo = 0xC59C (decimal 50588) the conversion yields
battery voltage ((50588 >> 5) + 1600) / 1000 = (1580 + 1600) / 1000 = 3.18 and
transmit power -40 + 2 × (50588 & 0x1F) = -40 + 2 × 28 = 16. -/
theorem BatteryVoltage_TxPower_50588 :
    (0xC59C : Nat) = 50588 ∧ (50588 >>> 5 : Nat) = 1580 ∧ (50588 &&& 0x1F : Nat) = 28 ∧
    BatteryVoltage { RuuviRawV2Data.zero with PowerInfo := 50588 } = 3.18 ∧
    TxPower { RuuviRawV2Data.zero with PowerInfo := 50588 } = 16 := by
  refine ⟨by decide, by decide, by decide, ?_, ?_⟩
  · norm_num [BatteryVoltage, Nat.shiftRight_eq_div_pow]
  · have h : (50588 &&& 0x1f : Nat) = 28 := by decide
    simp only [TxPower, h]
    norm_num

/-! ## Round trip -/

theorem highByte_lowByte (u : Nat) (h : u < 65536) :
    (highByte u).val * 256 + (lowByte u).val = u := by
  simp only [highByte, lowByte]
  omega

theorem lowByte_val (u : Nat) (h : u < 256) : (lowByte u).val = u := by
  simp only [lowByte]
  omega

theorem signed16_pattern16 (v : Int) (h1 : -32768 ≤ v) (h2 : v < 32768) :
    signed16 ((highByte (pattern16 v)).val * 256 + (lowByte (pattern16 v)).val) = v := by
  have hlt : pattern16 v < 65536 := by
    simp only [pattern16]
    omega
  rw [highByte_lowByte _ hlt]
  simp only [signed16, pattern16]
  split <;> omega

/-- C9: for every raw reading whose fields are in the range of their types, the payload
built as the tag byte 5 followed by the big-endian encoding of the fields in layout order
has first byte 5 and 24 bytes, is read without error and decodes to exactly the original
reading. -/
theorem decode_encode (r : RuuviRawV2Data) (hr : r.InRange) :
    (encode r)[0]? = some 5 ∧ (encode r).length = 24 ∧
    decodeErrors (encode r) = noErrors ∧ decode (encode r) = r := by
  obtain ⟨⟨ht1, ht2⟩, hh, hp, ⟨hx1, hx2⟩, ⟨hy1, hy2⟩, ⟨hz1, hz2⟩, hw, hc, hs⟩ := hr
  refine ⟨rfl, rfl, ?_, ?_⟩
  · simp only [decodeErrors, encode, List.drop_succ_cons, List.drop_zero, readRawData_cons]
  · simp only [decode, encode, List.drop_succ_cons, List.drop_zero, readRawData_cons,
      signed16_pattern16 _ ht1 ht2, signed16_pattern16 _ hx1 hx2, signed16_pattern16 _ hy1 hy2,
      signed16_pattern16 _ hz1 hz2, highByte_lowByte _ hh, highByte_lowByte _ hp,
      highByte_lowByte _ hw, highByte_lowByte _ hs, lowByte_val _ hc]

/-- The round trip at the reading of the end-to-end payload, which encodes to that
payload. -/
theorem decode_encode_witness :
    sampleReading.InRange ∧ encode sampleReading = samplePayload ∧
    decode (encode sampleReading) = sampleReading := by
  have hr : sampleReading.InRange := by
    simp only [RuuviRawV2Data.InRange, sampleReading]
    omega
  exact ⟨hr, by decide, (decode_encode sampleReading hr).2.2.2⟩

/-! ## The address parser -/

theorem mem_hexadecimalDigits {c : Char} (h : isHexDigit c = true) :
    c ∈ hexadecimalDigits := by
  simpa [isHexDigit] using h

theorem isSpace_of_isHexDigit {c : Char} (h : isHexDigit c = true) : isSpace c = false := by
  have hm := mem_hexadecimalDigits h
  simp only [hexadecimalDigits, List.mem_cons, List.mem_singleton, List.mem_nil_iff,
    or_false] at hm
  rcases hm with rfl | rfl | rfl | rfl | rfl | rfl | rfl | rfl | rfl | rfl | rfl | rfl |
    rfl | rfl | rfl | rfl | rfl | rfl | rfl | rfl | rfl | rfl <;> decide

theorem digitValue_lt {c : Char} (h : isHexDigit c = true) : digitValue c < 16 := by
  have hm := mem_hexadecimalDigits h
  simp only [hexadecimalDigits, List.mem_cons, List.mem_singleton, List.mem_nil_iff,
    or_false] at hm
  rcases hm with rfl | rfl | rfl | rfl | rfl | rfl | rfl | rfl | rfl | rfl | rfl | rfl |
    rfl | rfl | rfl | rfl | rfl | rfl | rfl | rfl | rfl | rfl <;> decide

theorem colon_not_hex : isHexDigit ':' = false := by decide

theorem isSpace_cr : isSpace '\r' = true := by decide

theorem isSpace_nl : isSpace '\n' = true := by decide

/-- What a successful `SkipSpace` has skipped. -/
theorem SkipSpace_ok {input out : List Char} (h : SkipSpace input = .ok out) :
    ∃ sp, input = sp ++ out ∧ (∀ c ∈ sp, isSpace c = true ∧ c ≠ '\n') ∧
      ∀ c rest, out = c :: rest → isSpace c = false := by
  induction input with
  | nil =>
    simp only [SkipSpace, Except.ok.injEq] at h
    subst h
    exact ⟨[], rfl, by simp, by simp⟩
  | cons r rest ih =>
    rw [SkipSpace] at h
    split_ifs at h with h1 h2 h3
    · obtain ⟨sp, hs, hsp, hout⟩ := ih h
      refine ⟨r :: sp, by rw [hs]; rfl, ?_, hout⟩
      intro c hc
      rcases List.mem_cons.mp hc with rfl | hc
      · rw [h1.1]
        exact ⟨by decide, by decide⟩
      · exact hsp c hc
    · obtain ⟨sp, hs, hsp, hout⟩ := ih h
      refine ⟨r :: sp, by rw [hs]; rfl, ?_, hout⟩
      intro c hc
      rcases List.mem_cons.mp hc with rfl | hc
      · exact ⟨h3, h2⟩
      · exact hsp c hc
    · simp only [Except.ok.injEq] at h
      subst h
      refine ⟨[], rfl, by simp, ?_⟩
      intro c rest' hc
      simp only [List.cons.injEq] at hc
      rw [← hc.1]
      simpa using h3

/-- Space other than a newline in front of a non-space rune is skipped. -/
theorem SkipSpace_append (sp : List Char) (d : Char) (rest : List Char)
    (hsp : ∀ c ∈ sp, isSpace c = true ∧ c ≠ '\n') (hd : isSpace d = false) :
    SkipSpace (sp ++ d :: rest) = .ok (d :: rest) := by
  induction sp with
  | nil =>
    have h1 : d ≠ '\r' := by
      rintro rfl
      simp [isSpace_cr] at hd
    have h2 : d ≠ '\n' := by
      rintro rfl
      simp [isSpace_nl] at hd
    simp [SkipSpace, h1, h2, hd]
  | cons r sp ih =>
    have hr := hsp r (List.mem_cons_self _ _)
    have ih' := ih (fun c hc => hsp c (List.mem_cons_of_mem _ hc))
    rw [List.cons_append, SkipSpace]
    split_ifs with h1 h2 h3
    · exact ih'
    · exact absurd h2 hr.2
    · exact ih'
    · exact absurd hr.1 (by simpa using h3)

theorem parseUint_one (h : Char) : parseUint [h] = digitValue h := by
  simp [parseUint]

theorem parseUint_two (h l : Char) : parseUint [h, l] = digitValue h * 16 + digitValue l := by
  simp [parseUint]

/-- Two hexadecimal digits are taken as one value, whatever follows. -/
theorem scanUint_two (h l : Char) (rest : List Char) (hh : isHexDigit h = true)
    (hl : isHexDigit l = true) :
    scanUint 2 (h :: l :: rest) = .ok (digitValue h * 16 + digitValue l, rest) := by
  have h1 := digitValue_lt hh
  have h2 := digitValue_lt hl
  have hlt : digitValue h * 16 + digitValue l < 256 := by omega
  simp [scanUint, scanNumber, acceptLoop, hh, hl, parseUint_two, hlt]

/-- One hexadecimal digit followed by a rune that is not one is taken alone. -/
theorem scanUint_one (h d : Char) (rest : List Char) (hh : isHexDigit h = true)
    (hd : isHexDigit d = false) :
    scanUint 2 (h :: d :: rest) = .ok (digitValue h, d :: rest) := by
  have h1 := digitValue_lt hh
  have hlt : digitValue h < 256 := by omega
  simp [scanUint, scanNumber, acceptLoop, hh, hd, parseUint_one, hlt]

/-- One hexadecimal digit at the end of the input is taken alone. -/
theorem scanUint_one_end (h : Char) (hh : isHexDigit h = true) :
    scanUint 2 [h] = .ok (digitValue h, []) := by
  have h1 := digitValue_lt hh
  have hlt : digitValue h < 256 := by omega
  simp [scanUint, scanNumber, acceptLoop, hh, parseUint_one, hlt]

/-- What a successful `scanUint` under width 2 has consumed. -/
theorem scanUint_ok {input out : List Char} {v : Nat} (h : scanUint 2 input = .ok (v, out)) :
    ∃ ds, input = ds ++ out ∧ (ds.length = 1 ∨ ds.length = 2) ∧
      ∀ c ∈ ds, isHexDigit c = true := by
  rcases input with _ | ⟨a, _ | ⟨b, rest⟩⟩
  · simp [scanUint, scanNumber] at h
  · by_cases ha : isHexDigit a = true
    · rw [scanUint_one_end a ha] at h
      simp only [Except.ok.injEq, Prod.mk.injEq] at h
      exact ⟨[a], by simp [← h.2], by simp, by simpa using ha⟩
    · simp [scanUint, scanNumber, ha] at h
  · by_cases ha : isHexDigit a = true
    · by_cases hb : isHexDigit b = true
      · rw [scanUint_two a b rest ha hb] at h
        simp only [Except.ok.injEq, Prod.mk.injEq] at h
        exact ⟨[a, b], by simp [← h.2], by simp, by simp [ha, hb]⟩
      · rw [scanUint_one a b rest ha (by simpa using hb)] at h
        simp only [Except.ok.injEq, Prod.mk.injEq] at h
        exact ⟨[a], by simp [← h.2], by simp, by simpa using ha⟩
    · simp [scanUint, scanNumber, ha] at h


/-- The shape of a string of the registry format. -/
theorem isMacString_shape {l : List Char} (h : isMacString l = true) :
    ∃ h0 l0 h1 l1 h2 l2 h3 l3 h4 l4 h5 l5 : Char,
      l = [h0, l0, ':', h1, l1, ':', h2, l2, ':', h3, l3, ':', h4, l4, ':', h5, l5] ∧
      isHexDigit h0 = true ∧ isHexDigit l0 = true ∧ isHexDigit h1 = true ∧
      isHexDigit l1 = true ∧ isHexDigit h2 = true ∧ isHexDigit l2 = true ∧
      isHexDigit h3 = true ∧ isHexDigit l3 = true ∧ isHexDigit h4 = true ∧
      isHexDigit l4 = true ∧ isHexDigit h5 = true ∧ isHexDigit l5 = true := by
  rcases l with _ | ⟨h0, l⟩
  · simp [isMacString] at h
  rcases l with _ | ⟨l0, l⟩
  · simp [isMacString] at h
  rcases l with _ | ⟨c0, l⟩
  · simp [isMacString] at h
  rcases l with _ | ⟨h1, l⟩
  · simp [isMacString] at h
  rcases l with _ | ⟨l1, l⟩
  · simp [isMacString] at h
  rcases l with _ | ⟨c1, l⟩
  · simp [isMacString] at h
  rcases l with _ | ⟨h2, l⟩
  · simp [isMacString] at h
  rcases l with _ | ⟨l2, l⟩
  · simp [isMacString] at h
  rcases l with _ | ⟨c2, l⟩
  · simp [isMacString] at h
  rcases l with _ | ⟨h3, l⟩
  · simp [isMacString] at h
  rcases l with _ | ⟨l3, l⟩
  · simp [isMacString] at h
  rcases l with _ | ⟨c3, l⟩
  · simp [isMacString] at h
  rcases l with _ | ⟨h4, l⟩
  · simp [isMacString] at h
  rcases l with _ | ⟨l4, l⟩
  · simp [isMacString] at h
  rcases l with _ | ⟨c4, l⟩
  · simp [isMacString] at h
  rcases l with _ | ⟨h5, l⟩
  · simp [isMacString] at h
  rcases l with _ | ⟨l5, l⟩
  · simp [isMacString] at h
  rcases l with _ | ⟨x, l⟩
  · simp only [isMacString, Bool.and_eq_true, beq_iff_eq] at h
    obtain ⟨⟨⟨⟨⟨⟨⟨⟨⟨⟨⟨⟨⟨⟨⟨⟨a0, a1⟩, rfl⟩, a2⟩, a3⟩, rfl⟩, a4⟩, a5⟩, rfl⟩, a6⟩, a7⟩, rfl⟩, a8⟩, a9⟩,
      rfl⟩, a10⟩, a11⟩ := h
    exact ⟨h0, l0, h1, l1, h2, l2, h3, l3, h4, l4, h5, l5, rfl, a0, a1, a2, a3, a4, a5, a6,
      a7, a8, a9, a10, a11⟩
  · simp [isMacString] at h

/-- A hexadecimal digit is not skipped as space. -/
theorem SkipSpace_hex (h : Char) (rest : List Char) (hh : isHexDigit h = true) :
    SkipSpace (h :: rest) = .ok (h :: rest) :=
  SkipSpace_append [] h rest (by simp) (isSpace_of_isHexDigit hh)

/-- One verb and the colon after it, on two digits and a colon. -/
theorem doScanf_pair_colon (format : List FormatItem) (h l : Char) (more : List Char)
    (stored : List Nat) (hh : isHexDigit h = true) (hl : isHexDigit l = true) :
    doScanf (.hex 2 :: .literal ':' :: format) (h :: l :: ':' :: more) stored =
      doScanf format more (stored ++ [digitValue h * 16 + digitValue l]) := by
  simp [doScanf, SkipSpace_hex h _ hh, scanUint_two h l _ hh hl]

/-- The last verb on two digits. -/
theorem doScanf_pair_last (h l : Char) (rest : List Char) (stored : List Nat)
    (hh : isHexDigit h = true) (hl : isHexDigit l = true) :
    doScanf [.hex 2] (h :: l :: rest) stored =
      (stored ++ [digitValue h * 16 + digitValue l], none) := by
  simp [doScanf, SkipSpace_hex h _ hh, scanUint_two h l _ hh hl]

/-- A verb step that does not fail has read one group. -/
theorem doScanf_hex_ok (format : List FormatItem) (input : List Char) (stored : List Nat)
    (h : (doScanf (.hex 2 :: format) input stored).2 = none) :
    ∃ g out v, IsGroup g ∧ input = g ++ out ∧
      (doScanf format out (stored ++ [v])).2 = none := by
  rw [doScanf] at h
  cases hs : SkipSpace input with
  | error e => simp [hs] at h
  | ok input1 =>
    simp only [hs] at h
    cases hu : scanUint 2 input1 with
    | error e => simp [hu] at h
    | ok p =>
      obtain ⟨v, out⟩ := p
      simp only [hu] at h
      obtain ⟨sp, hsp1, hsp2, _⟩ := SkipSpace_ok hs
      obtain ⟨ds, hds1, hds2, hds3⟩ := scanUint_ok hu
      exact ⟨sp ++ ds, out, v, ⟨sp, ds, rfl, hsp2, hds2, hds3⟩,
        by rw [hsp1, hds1, List.append_assoc], h⟩

/-- A literal step that does not fail has read that rune. -/
theorem doScanf_literal_ok (c : Char) (format : List FormatItem) (input : List Char)
    (stored : List Nat) (h : (doScanf (.literal c :: format) input stored).2 = none) :
    ∃ out, input = c :: out ∧ (doScanf format out stored).2 = none := by
  rcases input with _ | ⟨r, rest⟩
  · simp [doScanf] at h
  · rw [doScanf] at h
    split_ifs at h with hr
    · exact ⟨rest, by rw [hr], h⟩

/-- A group followed by a colon is read by a verb and the literal after it. -/
theorem doScanf_group_colon (format : List FormatItem) (g more : List Char)
    (stored : List Nat) (hg : IsGroup g) :
    ∃ v, doScanf (.hex 2 :: .literal ':' :: format) (g ++ ':' :: more) stored =
      doScanf format more (stored ++ [v]) := by
  obtain ⟨sp, ds, rfl, hsp, hlen, hds⟩ := hg
  rcases ds with _ | ⟨a, _ | ⟨b, _ | ⟨c, ds⟩⟩⟩
  · simp at hlen
  · have ha : isHexDigit a = true := hds a (by simp)
    refine ⟨digitValue a, ?_⟩
    rw [List.append_assoc, List.singleton_append, doScanf,
      SkipSpace_append sp a _ hsp (isSpace_of_isHexDigit ha)]
    simp [scanUint_one a ':' more ha colon_not_hex, doScanf]
  · have ha : isHexDigit a = true := hds a (by simp)
    have hb : isHexDigit b = true := hds b (by simp)
    refine ⟨digitValue a * 16 + digitValue b, ?_⟩
    rw [List.append_assoc, List.cons_append, List.singleton_append, doScanf,
      SkipSpace_append sp a _ hsp (isSpace_of_isHexDigit ha)]
    simp [scanUint_two a b _ ha hb, doScanf]
  · simp at hlen

/-- A group is read by the last verb, whatever follows it. -/
theorem doScanf_group_last (g rest : List Char) (stored : List Nat) (hg : IsGroup g) :
    ∃ v, doScanf [.hex 2] (g ++ rest) stored = (stored ++ [v], none) := by
  obtain ⟨sp, ds, rfl, hsp, hlen, hds⟩ := hg
  rcases ds with _ | ⟨a, _ | ⟨b, _ | ⟨c, ds⟩⟩⟩
  · simp at hlen
  · have ha : isHexDigit a = true := hds a (by simp)
    rw [List.append_assoc, List.singleton_append, doScanf,
      SkipSpace_append sp a _ hsp (isSpace_of_isHexDigit ha)]
    rcases rest with _ | ⟨d, rest⟩
    · exact ⟨digitValue a, by simp [scanUint_one_end a ha, doScanf]⟩
    · by_cases hd : isHexDigit d = true
      · exact ⟨digitValue a * 16 + digitValue d, by simp [scanUint_two a d _ ha hd, doScanf]⟩
      · exact ⟨digitValue a,
          by simp [scanUint_one a d rest ha (by simpa using hd), doScanf]⟩
  · have ha : isHexDigit a = true := hds a (by simp)
    have hb : isHexDigit b = true := hds b (by simp)
    refine ⟨digitValue a * 16 + digitValue b, ?_⟩
    rw [List.append_assoc, List.cons_append, List.singleton_append, doScanf,
      SkipSpace_append sp a _ hsp (isSpace_of_isHexDigit ha)]
    simp [scanUint_two a b _ ha hb, doScanf]
  · simp at hlen

/-- The scan of the address format succeeds exactly on the strings of six groups
separated by colons, followed by anything. -/
theorem doScanf_macFormat_iff (input : List Char) :
    (doScanf macFormat input []).2 = none ↔ IsLenientMac input := by
  constructor
  · intro h
    rw [macFormat] at h
    obtain ⟨g0, o0, v0, hg0, rfl, k0⟩ := doScanf_hex_ok _ _ _ h
    obtain ⟨p0, rfl, k1⟩ := doScanf_literal_ok _ _ _ _ k0
    obtain ⟨g1, o1, v1, hg1, rfl, k2⟩ := doScanf_hex_ok _ _ _ k1
    obtain ⟨p1, rfl, k3⟩ := doScanf_literal_ok _ _ _ _ k2
    obtain ⟨g2, o2, v2, hg2, rfl, k4⟩ := doScanf_hex_ok _ _ _ k3
    obtain ⟨p2, rfl, k5⟩ := doScanf_literal_ok _ _ _ _ k4
    obtain ⟨g3, o3, v3, hg3, rfl, k6⟩ := doScanf_hex_ok _ _ _ k5
    obtain ⟨p3, rfl, k7⟩ := doScanf_literal_ok _ _ _ _ k6
    obtain ⟨g4, o4, v4, hg4, rfl, k8⟩ := doScanf_hex_ok _ _ _ k7
    obtain ⟨p4, rfl, k9⟩ := doScanf_literal_ok _ _ _ _ k8
    obtain ⟨g5, o5, v5, hg5, rfl, k10⟩ := doScanf_hex_ok _ _ _ k9
    exact ⟨g0, g1, g2, g3, g4, g5, o5, hg0, hg1, hg2, hg3, hg4, hg5, rfl⟩
  · rintro ⟨g0, g1, g2, g3, g4, g5, rest, hg0, hg1, hg2, hg3, hg4, hg5, rfl⟩
    rw [macFormat]
    obtain ⟨v0, e0⟩ := doScanf_group_colon
      [.hex 2, .literal ':', .hex 2, .literal ':', .hex 2, .literal ':', .hex 2, .literal ':',
        .hex 2] g0 (g1 ++ ':' :: (g2 ++ ':' :: (g3 ++ ':' :: (g4 ++ ':' :: (g5 ++ rest))))) [] hg0
    obtain ⟨v1, e1⟩ := doScanf_group_colon
      [.hex 2, .literal ':', .hex 2, .literal ':', .hex 2, .literal ':', .hex 2]
      g1 (g2 ++ ':' :: (g3 ++ ':' :: (g4 ++ ':' :: (g5 ++ rest)))) ([] ++ [v0]) hg1
    obtain ⟨v2, e2⟩ := doScanf_group_colon
      [.hex 2, .literal ':', .hex 2, .literal ':', .hex 2]
      g2 (g3 ++ ':' :: (g4 ++ ':' :: (g5 ++ rest))) ([] ++ [v0] ++ [v1]) hg2
    obtain ⟨v3, e3⟩ := doScanf_group_colon [.hex 2, .literal ':', .hex 2]
      g3 (g4 ++ ':' :: (g5 ++ rest)) ([] ++ [v0] ++ [v1] ++ [v2]) hg3
    obtain ⟨v4, e4⟩ := doScanf_group_colon [.hex 2]
      g4 (g5 ++ rest) ([] ++ [v0] ++ [v1] ++ [v2] ++ [v3]) hg4
    obtain ⟨v5, e5⟩ := doScanf_group_last g5 rest
      ([] ++ [v0] ++ [v1] ++ [v2] ++ [v3] ++ [v4]) hg5
    rw [e0, e1, e2, e3, e4, e5]


/-- The result of `UnmarshalJSON` in terms of the error of `macStringToBytes`. -/
theorem UnmarshalJSON_error_iff (s : String) :
    (∃ e, UnmarshalJSON s = .error e) ↔ (macStringToBytes s).2 ≠ none := by
  unfold UnmarshalJSON
  rcases hm : macStringToBytes s with ⟨mac, _ | err⟩
  · simp
  · simp

/-- C10 as stated fails: a one-digit group, an extra group and trailing characters are
all accepted, although none of the three strings is six two-digit pairs separated by
colons. -/
theorem macStringToBytes_exact_counterexample :
    isMacString "1:2:3:4:5:6".data = false ∧
    macStringToBytes "1:2:3:4:5:6" = (⟨1, 2, 3, 4, 5, 6⟩, none) ∧
    UnmarshalJSON "1:2:3:4:5:6" = .ok ⟨1, 2, 3, 4, 5, 6⟩ ∧
    isMacString "aa:bb:cc:dd:ee:ff:00".data = false ∧
    macStringToBytes "aa:bb:cc:dd:ee:ff:00" = (⟨0xaa, 0xbb, 0xcc, 0xdd, 0xee, 0xff⟩, none) ∧
    isMacString "aa:bb:cc:dd:ee:ffzz".data = false ∧
    macStringToBytes "aa:bb:cc:dd:ee:ffzz" = (⟨0xaa, 0xbb, 0xcc, 0xdd, 0xee, 0xff⟩, none) := by
  refine ⟨by decide, by decide, by rfl, by decide, by decide, by decide, by decide⟩

/-- C10 (amended): for every string `s`: if `s` is exactly six two-digit hexadecimal
pairs (either case) separated by single colons, `macStringToBytes` succeeds and returns
the six bytes in the order written; `macStringToBytes` succeeds exactly when `s` starts
with six groups separated by single colons, a group being one or two hexadecimal digits
possibly preceded by white space other than a newline, whatever follows the sixth group;
on every other string it returns an error and `UnmarshalJSON` fails. -/
theorem macStringToBytes_spec (s : String) :
    (isMacString s.data = true →
      macStringToBytes s =
        (⟨hexPair (s.data.getD 0 '0') (s.data.getD 1 '0'),
          hexPair (s.data.getD 3 '0') (s.data.getD 4 '0'),
          hexPair (s.data.getD 6 '0') (s.data.getD 7 '0'),
          hexPair (s.data.getD 9 '0') (s.data.getD 10 '0'),
          hexPair (s.data.getD 12 '0') (s.data.getD 13 '0'),
          hexPair (s.data.getD 15 '0') (s.data.getD 16 '0')⟩, none)) ∧
    ((macStringToBytes s).2 = none ↔ IsLenientMac s.data) ∧
    ((∃ e, UnmarshalJSON s = .error e) ↔ ¬ IsLenientMac s.data) := by
  have hiff : (macStringToBytes s).2 = none ↔ IsLenientMac s.data :=
    doScanf_macFormat_iff s.data
  refine ⟨?_, hiff, ?_⟩
  · intro h
    obtain ⟨h0, l0, h1, l1, h2, l2, h3, l3, h4, l4, h5, l5, hs, a0, b0, a1, b1, a2, b2, a3,
      b3, a4, b4, a5, b5⟩ := isMacString_shape h
    simp only [macStringToBytes, hs, macFormat, doScanf_pair_colon _ _ _ _ _ a0 b0,
      doScanf_pair_colon _ _ _ _ _ a1 b1, doScanf_pair_colon _ _ _ _ _ a2 b2,
      doScanf_pair_colon _ _ _ _ _ a3 b3, doScanf_pair_colon _ _ _ _ _ a4 b4,
      doScanf_pair_last _ _ _ _ a5 b5]
    simp [hexPair]
  · rw [UnmarshalJSON_error_iff, ← hiff]

/-- The amended C10 at the address of "Master bedroom" written in lower case. -/
theorem macStringToBytes_spec_witness :
    isMacString "e6:99:94:26:c5:c3".data = true ∧
    macStringToBytes "e6:99:94:26:c5:c3" = (⟨0xE6, 0x99, 0x94, 0x26, 0xC5, 0xC3⟩, none) ∧
    IsLenientMac "e6:99:94:26:c5:c3".data := by
  have h := macStringToBytes_spec "e6:99:94:26:c5:c3"
  refine ⟨by decide, ?_, h.2.1.mp (by decide)⟩
  rw [h.1 (by decide)]
  decide

end Scanner
